import Mathlib

/-!
Verification of the GhostList member-harvesting engine (src/main.py,
src/supabase_client.py) against its natural-language specification.

The Python source is shallowly embedded: each relevant function is
translated to a pure Lean function over explicit data; dictionaries become
structures, the module-level `active_downloads` registry becomes an
association list threaded through the functions that touch it, remote
calls become oracle parameters, and Python truthiness on optional strings
is modelled explicitly.
-/

/-- Python truthiness of an optional string: `None` and the empty string
are falsy, every other string is truthy. -/
def strTruthy : Option String → Bool
  | none => false
  | some s => !s.isEmpty

/-- Models `a or ''` on an optional string (src/main.py field rendering). -/
def pyStrOrEmpty (a : Option String) : String :=
  if strTruthy a then a.getD "" else ""

/-- Models `a or b or ''` on two optional strings (the dual-format field
fallback in `create_subscribers_csv`, src/main.py:1027-1028). -/
def pyStrOr2 (a b : Option String) : String :=
  if strTruthy a then a.getD "" else if strTruthy b then b.getD "" else ""

/-- Models `a or dflt` on an optional string. -/
def pyStrOrDefault (a : Option String) (dflt : String) : String :=
  if strTruthy a then a.getD "" else dflt

/-! ## Access control (src/main.py:74-79) -/

/-- Models `is_user_allowed`: if the configured allow-list is empty every
user is permitted, otherwise membership in the list decides. -/
def is_user_allowed (allowedUserIds : List Int) (userId : Int) : Bool :=
  if allowedUserIds.isEmpty then true
  else allowedUserIds.contains userId

/-! ## Channel list management (src/main.py:127-143, 237-248) -/

/-- One entry of the persisted `channels.json` list.  Ids are compared as
strings in the source (`str(ch.get('id', '')) != str(channel_id)`), so the
identity is modelled as a string. -/
structure ChannelRec where
  id : String
  title : String
  username : Option String
  accessHash : Option String
deriving Repr, DecidableEq

/-- Models `remove_channel` (src/main.py:237-248).  The first component is
the `success` flag of the returned dict; the second is `some l` when
`save_channels l` was called and `none` when nothing was rewritten. -/
def remove_channel (channels : List ChannelRec) (channelId : String) :
    Bool × Option (List ChannelRec) :=
  let filteredChannels := channels.filter (fun ch => !(ch.id == channelId))
  if filteredChannels.length = channels.length then (false, none)
  else (true, some filteredChannels)

/-! ## Status normalization (src/main.py:441-449, also 356-375, 752-760) -/

/-- The `status_map` table of `get_channel_subscribers` and
`get_channel_subscribers_turbo`. -/
def statusTable : List (String × String) :=
  [("UserStatusOnline", "Online"),
   ("UserStatusOffline", "Offline"),
   ("UserStatusRecently", "Recently"),
   ("UserStatusLastWeek", "Last Week"),
   ("UserStatusLastMonth", "Last Month"),
   ("UserStatusEmpty", "Empty")]

/-- Models the status normalization: `none` stands for a user with no
status attribute (or a `None` status), in which case the default
`"Unknown"` survives; otherwise the type name of the status object is
looked up in `status_map` with the raw name itself as fallback
(`status_map.get(status_name, status_name)`). -/
def normalizeStatus (statusName : Option String) : String :=
  match statusName with
  | none => "Unknown"
  | some s =>
      match statusTable.find? (fun p => p.1 == s) with
      | some p => p.2
      | none => s

/-! ## Deduplication store (src/main.py:354-399, 436-472, 544-581) -/

/-- One normalized member record, the `user_data` dict built by
`get_channel_subscribers` (src/main.py:377-395).  The `bio` field is named
`bioText` here. -/
structure UserData where
  id : Nat
  username : Option String
  firstName : Option String
  lastName : Option String
  phone : Option String
  bot : Bool
  deleted : Bool
  premium : Bool
  verified : Bool
  restricted : Bool
  langCode : Option String
  status : String
  bioText : Option String
  isScam : Bool
  isFake : Bool
  joinDate : Option String
deriving Repr, DecidableEq

/-- Models one insertion into `unique_users`: the dict is keyed by
`f"id{user.id}"` and a record is stored only when the key is absent
(`if user_key not in unique_users`), so re-insertion of a seen identity
leaves the store untouched.  Python dicts preserve insertion order, hence
the list model with append. -/
def dedupInsert (uniqueUsers : List UserData) (u : UserData) : List UserData :=
  if uniqueUsers.any (fun v => v.id == u.id) then uniqueUsers
  else uniqueUsers ++ [u]

/-! ## Partial-result export (src/main.py:970-1000) -/

/-- The per-job tracker stored in `active_downloads`
(src/main.py:312). -/
structure DownloadTracker where
  cancelled : Bool
  partialData : List UserData
deriving Repr, DecidableEq

/-- Models `export_partial_data` acting on the `active_downloads`
registry (an association list keyed by message id).  The first component
is the exported buffer (`none` models the `return False` "no data"
paths); the second is the registry afterwards — the source never deletes
or mutates the entry in this function. -/
def export_partial_data (activeDownloads : List (Nat × DownloadTracker))
    (messageId : Nat) :
    Option (List UserData) × List (Nat × DownloadTracker) :=
  match activeDownloads.find? (fun p => p.1 == messageId) with
  | none => (none, activeDownloads)
  | some entry =>
      if entry.2.partialData.isEmpty then (none, activeDownloads)
      else (some entry.2.partialData, activeDownloads)

/-! ## Incremental (turbo) sync (src/main.py:705-845) -/

/-- The record built per user in turbo mode (src/main.py:762-772),
reduced to the fields that exist there. -/
structure TUser where
  id : Nat
  username : Option String
  bot : Bool
  status : String
deriving Repr, DecidableEq

/-- The loop state of `get_channel_subscribers_turbo`: the `new_users`
buffer and the batches already passed to `db.upsert_subscribers`. -/
structure TurboState where
  newUsers : List TUser
  writes : List (List TUser)
deriving Repr, DecidableEq

/-- One iteration of the `async for user in client.iter_participants`
loop (src/main.py:739-800): users already in `existing_ids` are skipped;
otherwise the user is appended to `new_users`, and once the buffer
reaches 500 it is upserted and cleared. -/
def turboStep (existingIds : List Nat) (st : TurboState) (u : TUser) :
    TurboState :=
  if existingIds.contains u.id then st
  else
    let buffered := st.newUsers ++ [u]
    if 500 ≤ buffered.length then
      { newUsers := [], writes := st.writes ++ [buffered] }
    else
      { newUsers := buffered, writes := st.writes }

/-- The whole turbo enumeration loop over the discovered sequence. -/
def turboFold (existingIds : List Nat) (discovered : List TUser) : TurboState :=
  discovered.foldl (turboStep existingIds) { newUsers := [], writes := [] }

/-- Models `get_channel_subscribers_turbo` without cancellation: after
the loop, a non-empty remainder buffer is upserted as a final batch
(src/main.py:809-814) — but the buffer is not cleared — and the returned
`new_count` is `len(new_users)` at that point (src/main.py:829-834).
Returns the batches written to the persistence adapter and `new_count`. -/
def get_channel_subscribers_turbo (existingIds : List Nat)
    (discovered : List TUser) : List (List TUser) × Nat :=
  let st := turboFold existingIds discovered
  (if st.newUsers.isEmpty then st.writes else st.writes ++ [st.newUsers],
   st.newUsers.length)

/-! ## Batched upsert (src/supabase_client.py:119-147) -/

/-- The batch decomposition of `for i in range(0, len(records), batch_size):
batch = records[i:i + batch_size]`. -/
def chunkBatches (batchSize : Nat) (records : List α) : List (List α) :=
  if h : records.isEmpty ∨ batchSize = 0 then []
  else records.take batchSize :: chunkBatches batchSize (records.drop batchSize)
termination_by records.length
decreasing_by
  simp only [List.length_drop]
  push_neg at h
  have hpos : 0 < records.length := by
    cases records with
    | nil => simp at h
    | cons a l => simp
  omega

/-- What one run of the upsert loop did: which batches were attempted and
the returned count. -/
structure UpsertTrace (α : Type) where
  attempted : List (List α)
  insertedCount : Nat
deriving Repr

/-- One iteration of the upsert batch loop: the batch is always
attempted; on success the count grows by the batch size, on an adapter
error the failure is logged and the count is left alone. -/
def upsertStep (batchFails : Nat → Bool) (tr : UpsertTrace α)
    (ib : Nat × List α) : UpsertTrace α :=
  { attempted := tr.attempted ++ [ib.2],
    insertedCount :=
      if batchFails ib.1 then tr.insertedCount
      else tr.insertedCount + ib.2.length }

/-- Models `upsert_subscribers` (src/supabase_client.py:119-147): each
500-record batch is attempted inside its own try/except; `batchFails i`
says whether the adapter call for batch `i` raises.  A failed batch is
logged and skipped; the loop continues and the function returns a count
instead of raising. -/
def upsert_subscribers (batchFails : Nat → Bool) (records : List α) :
    UpsertTrace α :=
  (chunkBatches 500 records).enum.foldl (upsertStep batchFails)
    { attempted := [], insertedCount := 0 }

/-- A concrete member record used in closed instances. -/
def sampleUser : UserData :=
  { id := 7, username := some "alice", firstName := some "Alice",
    lastName := none, phone := none, bot := false, deleted := false,
    premium := false, verified := false, restricted := false,
    langCode := none, status := "Recently", bioText := none,
    isScam := false, isFake := false, joinDate := none }

/-! ### Theorems -/

/-- Claim C9: when the configured allow-list is empty, `is_user_allowed`
returns `true` for every user; when it is non-empty it returns `true`
exactly for members of the list. -/
theorem is_user_allowed_spec (allowedUserIds : List Int) (userId : Int) :
    (allowedUserIds = [] → is_user_allowed allowedUserIds userId = true) ∧
    (allowedUserIds ≠ [] →
      (is_user_allowed allowedUserIds userId = true ↔ userId ∈ allowedUserIds)) := by
  constructor
  · intro h
    simp [is_user_allowed, h]
  · intro h
    simp [is_user_allowed, List.isEmpty_iff, h]

/-- Witness for C9 at concrete inputs. -/
theorem is_user_allowed_spec_w :
    is_user_allowed [] 5 = true ∧
    (is_user_allowed [1, 2] 2 = true ↔ (2 : Int) ∈ [(1 : Int), 2]) :=
  ⟨(is_user_allowed_spec [] 5).1 rfl,
   (is_user_allowed_spec [1, 2] 2).2 (by decide)⟩

/-- Claim C10: when no stored channel matches the identifier,
`remove_channel` reports failure and nothing is rewritten; when a match
exists it succeeds and persists exactly the non-matching entries, in
order. -/
theorem remove_channel_spec (channels : List ChannelRec) (channelId : String) :
    ((∀ ch ∈ channels, ch.id ≠ channelId) →
      remove_channel channels channelId = (false, none)) ∧
    ((∃ ch ∈ channels, ch.id = channelId) →
      remove_channel channels channelId =
        (true, some (channels.filter (fun ch => !(ch.id == channelId))))) := by
  constructor
  · intro h
    have hfix : channels.filter (fun ch => !(ch.id == channelId)) = channels := by
      apply List.filter_eq_self.mpr
      intro a ha
      simpa using h a ha
    simp [remove_channel, hfix]
  · rintro ⟨ch, hmem, hid⟩
    have hlt : (channels.filter (fun ch => !(ch.id == channelId))).length <
        channels.length := by
      apply List.length_filter_lt_length_iff_exists.mpr
      exact ⟨ch, hmem, by simp [hid]⟩
    simp [remove_channel, Nat.ne_of_lt hlt]

/-- Witness for C10 at concrete inputs. -/
theorem remove_channel_spec_w :
    remove_channel [⟨"10", "A", none, none⟩, ⟨"20", "B", none, none⟩] "99" =
      (false, none) ∧
    remove_channel [⟨"10", "A", none, none⟩, ⟨"20", "B", none, none⟩] "20" =
      (true, some [⟨"10", "A", none, none⟩]) := by
  constructor
  · exact (remove_channel_spec [⟨"10", "A", none, none⟩, ⟨"20", "B", none, none⟩]
      "99").1 (by decide)
  · have h := (remove_channel_spec
      [⟨"10", "A", none, none⟩, ⟨"20", "B", none, none⟩] "20").2
      ⟨⟨"20", "B", none, none⟩, by decide, rfl⟩
    simpa using h

/-- Counterexample for claim C3: a provider status value outside the
closed table is normalized to its own raw name, not to the single
fallback value. -/
theorem normalizeStatus_counterexample :
    normalizeStatus (some "UserStatusBanana") = "UserStatusBanana" ∧
    normalizeStatus (some "UserStatusBanana") ≠ "Unknown" ∧
    normalizeStatus (some "UserStatusBanana") ∉
      ["Online", "Offline", "Recently", "Last Week", "Last Month", "Empty"] := by
  refine ⟨rfl, by decide, by decide⟩

/-- Claim C3 as amended: a missing or empty status maps to `"Unknown"`;
the six recognized provider statuses map through the closed table; every
other provider status value maps to its own raw name (pass-through), and
normalization is total (never fails). -/
theorem normalizeStatus_amended :
    normalizeStatus none = "Unknown" ∧
    (∀ p ∈ statusTable, normalizeStatus (some p.1) = p.2) ∧
    (∀ s : String, s ∉ statusTable.map Prod.fst → normalizeStatus (some s) = s) := by
  refine ⟨rfl, by decide, ?_⟩
  intro s hs
  have hfind : statusTable.find? (fun p => p.1 == s) = none := by
    apply List.find?_eq_none.mpr
    intro p hp
    simp only [beq_iff_eq]
    intro hc
    exact hs (by simpa [hc] using List.mem_map_of_mem Prod.fst hp)
  simp [normalizeStatus, hfind]

/-- Witness for the amended C3 at concrete inputs. -/
theorem normalizeStatus_amended_w :
    ("UserStatusOnline", "Online") ∈ statusTable ∧
    normalizeStatus (some "UserStatusOnline") = "Online" ∧
    "UserStatusWasOnline" ∉ statusTable.map Prod.fst ∧
    normalizeStatus (some "UserStatusWasOnline") = "UserStatusWasOnline" :=
  ⟨by decide,
   normalizeStatus_amended.2.1 ("UserStatusOnline", "Online") (by decide),
   by decide,
   normalizeStatus_amended.2.2 "UserStatusWasOnline" (by decide)⟩

/-- Claim C6: inserting a member whose identity is already present leaves
the deduplication store unchanged (so no field of the first record is
ever overwritten), distinctness of identities is preserved, and a second
insertion of any record with the same identity is a no-op. -/
theorem dedupInsert_spec (store : List UserData) (u : UserData) :
    ((∃ v ∈ store, v.id = u.id) → dedupInsert store u = store) ∧
    (store.Pairwise (fun a b => a.id ≠ b.id) →
      (dedupInsert store u).Pairwise (fun a b => a.id ≠ b.id)) ∧
    (∀ u' : UserData, u'.id = u.id →
      dedupInsert (dedupInsert store u) u' = dedupInsert store u) := by
  have hmem : ∀ w : List UserData, ∀ x : UserData,
      (∃ v ∈ w, v.id = x.id) → dedupInsert w x = w := by
    intro w x ⟨v, hv, hid⟩
    have : w.any (fun y => y.id == x.id) = true :=
      List.any_eq_true.mpr ⟨v, hv, by simp [hid]⟩
    simp [dedupInsert, this]
  refine ⟨hmem store u, ?_, ?_⟩
  · intro hp
    by_cases h : store.any (fun v => v.id == u.id) = true
    · simpa [dedupInsert, h] using hp
    · have hall : ∀ v ∈ store, v.id ≠ u.id := by
        intro v hv hveq
        exact h (List.any_eq_true.mpr ⟨v, hv, by simp [hveq]⟩)
      simp only [dedupInsert, h, if_false]
      refine List.pairwise_append.mpr ⟨hp, List.pairwise_singleton _ _, ?_⟩
      intro a ha b hb
      simp only [List.mem_singleton] at hb
      subst hb
      exact hall a ha
  · intro u' hid
    apply hmem
    by_cases h : store.any (fun v => v.id == u.id) = true
    · obtain ⟨v, hv, hveq⟩ := List.any_eq_true.mp h
      exact ⟨v, by simp [dedupInsert, h, hv], by simpa [hid] using hveq⟩
    · refine ⟨u, ?_, hid.symm⟩
      simp [dedupInsert, h]

/-- Witness for C6 at concrete inputs: re-inserting a record with the
same identity but different (null) fields does not overwrite the first
record. -/
theorem dedupInsert_spec_w :
    dedupInsert [sampleUser] { sampleUser with username := none } =
      [sampleUser] ∧
    (dedupInsert [] sampleUser).Pairwise (fun a b => a.id ≠ b.id) := by
  constructor
  · exact (dedupInsert_spec [sampleUser]
      { sampleUser with username := none }).1 ⟨sampleUser, by decide, rfl⟩
  · exact (dedupInsert_spec [] sampleUser).2.1 (by decide)

/-- Counterexample for claim C2: with a cancelled job whose tracker holds
a non-empty partial buffer, a first `export_partial_data` call returns
the buffer and a second call on the resulting registry returns the very
same buffer again — not "no data". -/
theorem export_partial_counterexample :
    (export_partial_data [(1, ⟨true, [sampleUser]⟩)] 1).1 = some [sampleUser] ∧
    (export_partial_data
        ((export_partial_data [(1, ⟨true, [sampleUser]⟩)] 1).2) 1).1 =
      some [sampleUser] ∧
    (some [sampleUser] ≠ (none : Option (List UserData))) := by
  refine ⟨by decide, by decide, by decide⟩

/-- Claim C2 as amended: `export_partial_data` never mutates the
`active_downloads` registry, so the partial buffer of a cancelled job is
retained for every follow-up call, not exactly one: a repeated call
returns the same result, and whenever the job's entry is present with a
non-empty buffer the call returns that buffer. -/
theorem export_partial_amended (activeDownloads : List (Nat × DownloadTracker))
    (messageId : Nat) :
    (export_partial_data activeDownloads messageId).2 = activeDownloads ∧
    export_partial_data ((export_partial_data activeDownloads messageId).2)
        messageId = export_partial_data activeDownloads messageId ∧
    (∀ e, activeDownloads.find? (fun p => p.1 == messageId) = some e →
      e.2.partialData ≠ [] →
      (export_partial_data activeDownloads messageId).1 = some e.2.partialData) := by
  have hstate : (export_partial_data activeDownloads messageId).2 =
      activeDownloads := by
    unfold export_partial_data
    cases activeDownloads.find? (fun p => p.1 == messageId) with
    | none => rfl
    | some e => by_cases h : e.2.partialData.isEmpty <;> simp [h]
  refine ⟨hstate, by rw [hstate], ?_⟩
  intro e hfind hne
  have hemp : e.2.partialData.isEmpty = false := by
    simpa [List.isEmpty_iff] using hne
  simp [export_partial_data, hfind, hemp]

/-- Witness for the amended C2 at concrete inputs. -/
theorem export_partial_amended_w :
    (export_partial_data [(3, ⟨true, [sampleUser]⟩)] 3).2 =
      [(3, ⟨true, [sampleUser]⟩)] ∧
    (export_partial_data [(3, ⟨true, [sampleUser]⟩)] 3).1 =
      some [sampleUser] :=
  ⟨(export_partial_amended [(3, ⟨true, [sampleUser]⟩)] 3).1,
   (export_partial_amended [(3, ⟨true, [sampleUser]⟩)] 3).2.2
     (3, ⟨true, [sampleUser]⟩) (by decide) (by decide)⟩

/-! ### Turbo sync lemmas -/

/-- One turbo step appends the user to the pending content (buffer plus
flushed batches) exactly when the user is new. -/
theorem turboStep_flatten (existingIds : List Nat) (st : TurboState)
    (u : TUser) :
    ((turboStep existingIds st u).writes).flatten ++
        (turboStep existingIds st u).newUsers =
      st.writes.flatten ++ st.newUsers ++
        (if existingIds.contains u.id then [] else [u]) := by
  by_cases h : u.id ∈ existingIds
  · simp [turboStep, h]
  · by_cases h2 : 500 ≤ st.newUsers.length + 1
    · simp [turboStep, h, h2, List.append_assoc]
    · simp [turboStep, h, h2, List.append_assoc]

/-- Fold invariant: flushed batches plus the final buffer hold exactly
the discovered users absent from the snapshot, in order. -/
theorem turboFoldFrom_flatten (existingIds : List Nat)
    (discovered : List TUser) (st : TurboState) :
    ((discovered.foldl (turboStep existingIds) st).writes).flatten ++
        (discovered.foldl (turboStep existingIds) st).newUsers =
      st.writes.flatten ++ st.newUsers ++
        discovered.filter (fun u => !(existingIds.contains u.id)) := by
  induction discovered generalizing st with
  | nil => simp
  | cons u rest ih =>
    simp only [List.foldl_cons, List.filter_cons]
    rw [ih, turboStep_flatten]
    by_cases h : u.id ∈ existingIds
    · simp [h]
    · simp [h, List.append_assoc]

/-- One turbo step keeps the buffer under 500 and tracks the number of
new users seen so far modulo the batch size. -/
theorem turboStep_buflen (existingIds : List Nat) (st : TurboState)
    (u : TUser) (h : st.newUsers.length < 500) :
    (turboStep existingIds st u).newUsers.length < 500 ∧
    (turboStep existingIds st u).newUsers.length =
      (st.newUsers.length +
        (if existingIds.contains u.id then 0 else 1)) % 500 := by
  by_cases hc : u.id ∈ existingIds
  · simp only [turboStep]
    simp [hc]
    omega
  · by_cases h2 : 500 ≤ st.newUsers.length + 1
    · simp only [turboStep]
      simp [hc, h2]
      omega
    · simp only [turboStep]
      simp [hc, h2]
      omega

/-- Fold version of the buffer-length invariant. -/
theorem turboFoldFrom_buflen (existingIds : List Nat)
    (discovered : List TUser) (st : TurboState)
    (h : st.newUsers.length < 500) :
    (discovered.foldl (turboStep existingIds) st).newUsers.length < 500 ∧
    (discovered.foldl (turboStep existingIds) st).newUsers.length =
      (st.newUsers.length +
        (discovered.filter (fun u => !(existingIds.contains u.id))).length)
        % 500 := by
  induction discovered generalizing st with
  | nil =>
    exact ⟨h, by simpa using (Nat.mod_eq_of_lt h).symm⟩
  | cons u rest ih =>
    obtain ⟨h1, h2⟩ := turboStep_buflen existingIds st u h
    obtain ⟨h3, h4⟩ := ih (turboStep existingIds st u) h1
    refine ⟨h3, ?_⟩
    simp only [List.foldl_cons, List.filter_cons]
    rw [h4, h2]
    by_cases hc : u.id ∈ existingIds
    · simp [hc]
    · simp [hc]
      omega

/-- The batches `get_channel_subscribers_turbo` hands to the adapter
flatten to exactly the discovered users whose id is absent from the
`existing_ids` snapshot. -/
theorem turbo_writes_flatten (existingIds : List Nat)
    (discovered : List TUser) :
    (get_channel_subscribers_turbo existingIds discovered).1.flatten =
      discovered.filter (fun u => !(existingIds.contains u.id)) := by
  have h := turboFoldFrom_flatten existingIds discovered
    { newUsers := [], writes := [] }
  simp only [List.flatten_nil, List.nil_append] at h
  simp only [get_channel_subscribers_turbo, turboFold] at *
  by_cases he :
      (discovered.foldl (turboStep existingIds)
        { newUsers := [], writes := [] }).newUsers.isEmpty
  · have he2 := List.isEmpty_iff.mp he
    simp only [he, if_true]
    rw [← h, he2, List.append_nil]
  · simp only [he, Bool.false_eq_true, if_false]
    rw [List.flatten_append, ← h]
    simp

/-- The `new_count` the source returns is the length of the remainder
buffer: the number of new users modulo the 500 batch size, not the
number of new users written. -/
theorem turbo_new_count_eq_mod (existingIds : List Nat)
    (discovered : List TUser) :
    (get_channel_subscribers_turbo existingIds discovered).2 =
      (discovered.filter (fun u => !(existingIds.contains u.id))).length
        % 500 := by
  have h := (turboFoldFrom_buflen existingIds discovered
    { newUsers := [], writes := [] } (by simp)).2
  simpa [get_channel_subscribers_turbo, turboFold] using h

/-- 500 distinct members, none of them in the snapshot: the failing
input for claim C1. -/
def turboDiscovered500 : List TUser :=
  (List.range 500).map
    (fun i => { id := i, username := none, bot := false, status := "Unknown" })

/-- Claim C1 fails on the code: with an empty `existing_ids` snapshot and
500 newly discovered members, the turbo sync writes all 500 members to
the persistence adapter (one full batch) but returns `new_count = 0`,
because `new_users` is cleared at each 500-batch flush and `new_count`
is taken from the remainder buffer afterwards. -/
theorem turbo_new_count_bug :
    (get_channel_subscribers_turbo [] turboDiscovered500).1.flatten =
      turboDiscovered500 ∧
    (get_channel_subscribers_turbo [] turboDiscovered500).1.flatten.length
      = 500 ∧
    (get_channel_subscribers_turbo [] turboDiscovered500).2 = 0 := by
  have hfilter :
      turboDiscovered500.filter (fun u => !(List.contains [] u.id)) =
        turboDiscovered500 := by
    apply List.filter_eq_self.mpr
    intro a ha
    rfl
  have hlen : turboDiscovered500.length = 500 := by
    simp [turboDiscovered500]
  refine ⟨?_, ?_, ?_⟩
  · rw [turbo_writes_flatten, hfilter]
  · rw [turbo_writes_flatten, hfilter, hlen]
  · rw [turbo_new_count_eq_mod, hfilter, hlen]

/-! ### Upsert lemmas -/

/-- The attempted-batch log of the upsert fold collects every enumerated
batch, whatever the failure pattern. -/
theorem upsertFold_attempted (batchFails : Nat → Bool)
    (l : List (Nat × List α)) (tr : UpsertTrace α) :
    (l.foldl (upsertStep batchFails) tr).attempted =
      tr.attempted ++ l.map Prod.snd := by
  induction l generalizing tr with
  | nil => simp
  | cons ib rest ih =>
    simp only [List.foldl_cons, List.map_cons]
    rw [ih]
    simp [upsertStep, List.append_assoc]

/-- Claim C8: a failing batch does not abort the remaining batches —
`upsert_subscribers` attempts every 500-record batch of its input no
matter which adapter calls fail, exactly as in the failure-free run, and
returns a count. -/
theorem upsert_subscribers_spec (batchFails : Nat → Bool)
    (records : List α) :
    (upsert_subscribers batchFails records).attempted =
      chunkBatches 500 records ∧
    (upsert_subscribers batchFails records).attempted =
      (upsert_subscribers (fun _ => false) records).attempted := by
  have h : ∀ f : Nat → Bool,
      (upsert_subscribers f records).attempted = chunkBatches 500 records := by
    intro f
    unfold upsert_subscribers
    rw [upsertFold_attempted]
    simp [List.enum_map_snd]
  exact ⟨h batchFails, by rw [h batchFails, h (fun _ => false)]⟩

/-! ## Enrichment pipeline (src/main.py:848-967,
src/supabase_client.py:154-182) and the legacy extended mode
(src/main.py:614-658) -/

/-- One row of the `subscribers` table as written by
`upsert_subscribers` (src/supabase_client.py:102-116).  There is no
deleted column; the automated-account flag is `is_bot`. -/
structure DbRow where
  id : Nat
  username : Option String
  firstName : Option String
  lastName : Option String
  phone : Option String
  isBot : Bool
  status : Option String
  bioText : Option String
  joinDate : Option String
deriving Repr, DecidableEq

/-- The projected record the needing-enrichment query returns
(`select('id, username, first_name, last_name')`). -/
structure EnrichRec where
  id : Nat
  username : Option String
  firstName : Option String
  lastName : Option String
deriving Repr, DecidableEq

/-- Models `get_subscribers_needing_enrichment`
(src/supabase_client.py:154-182): all rows of the channel whose bio or
join date is null, projected to four columns.  No flag of the row — in
particular not `is_bot` — takes part in the filter. -/
def get_subscribers_needing_enrichment (rows : List DbRow) : List EnrichRec :=
  (rows.filter (fun r => r.bioText.isNone || r.joinDate.isNone)).map
    (fun r =>
      { id := r.id, username := r.username,
        firstName := r.firstName, lastName := r.lastName })

/-- Combined result of the per-member remote calls
(`GetFullUserRequest` plus the nested `GetParticipantRequest`) in the
enrichment loop: a normal result with the obtained bio and join date, a
FloodWait throttle signal carrying a wait in seconds, or any other
error. -/
inductive FetchOutcome where
  | ok (bioText : Option String) (joinDate : Option String)
  | floodWait (seconds : Nat)
  | err
deriving Repr, DecidableEq

/-- The observable trace of one `enrich_subscribers` pass: counters,
which member identities were sent down the per-member detail-call path,
which database updates happened, the sleeps issued (in milliseconds),
and whether the loop's `progress` local has been assigned yet — it is
first assigned at src/main.py:931 and the FloodWait handler reads it at
src/main.py:921, so its binding state decides between a backoff and a
crash. -/
structure EnrichState where
  enrichedCount : Nat
  skipped : Nat
  detailCalls : List Nat
  updates : List (Nat × Option String × Option String)
  sleeps : List Nat
  progressBound : Bool
deriving Repr, DecidableEq

/-- The state at the start of a pass: nothing happened and the
`progress` local is not yet assigned. -/
def initEnrichState : EnrichState :=
  { enrichedCount := 0, skipped := 0, detailCalls := [], updates := [],
    sleeps := [], progressBound := false }

/-- How a pass of `enrich_subscribers` ends: normally, or aborted by the
`UnboundLocalError` the FloodWait handler raises when it passes the
still-unassigned `progress` local to the progress renderer
(src/main.py:921); the outer handler at src/main.py:958 catches that and
returns zeroed counters.  Either way the carried state records the side
effects that already happened. -/
inductive EnrichRun where
  | done (st : EnrichState)
  | aborted (st : EnrichState)
deriving Repr, DecidableEq

/-- The side effects a run performed, whether or not it aborted. -/
def EnrichRun.trace : EnrichRun → EnrichState
  | .done st => st
  | .aborted st => st

/-- The (enriched, skipped) counters the function returns: the loop's
counters on normal completion, zeros when the pass aborted
(src/main.py:967 returns the zeroed error dict). -/
def EnrichRun.returned : EnrichRun → Nat × Nat
  | .done st => (st.enrichedCount, st.skipped)
  | .aborted _ => (0, 0)

/-- The end-of-iteration progress block (src/main.py:929-938): when the
item-count threshold fires (`(idx + 1) % 20 == 0`) or the time window
elapsed (`timeFires idx` models the wall-clock condition), the local
`progress` is assigned (src/main.py:931) and a progress update is
rendered. -/
def progressBlock (timeFires : Nat → Bool) (idx : Nat)
    (st : EnrichState) : EnrichState :=
  if ((idx + 1) % 20 == 0) || timeFires idx then
    { st with progressBound := true }
  else st

/-- Whether the oracle reports a FloodWait for a record. -/
def isFlood : FetchOutcome → Bool
  | .floodWait _ => true
  | _ => false

/-- The `for idx, user_record in enumerate(...)` loop of
`enrich_subscribers` (src/main.py:880-938).  The detail call
(`GetFullUserRequest`) is issued for every record reached — the loop has
no bot/deleted guard.  On a normal outcome a truthy bio or join date is
written back and counted enriched, otherwise skipped; either way the
0.3 s pacing sleep runs and the progress block follows.  On a FloodWait
that reaches the outer handler: if `progress` is already bound, the
pipeline renders the wait message, sleeps `wait + 2` seconds, counts the
member skipped and continues with the next record — no retry of the
same operation, and the `continue` skips the progress block; if
`progress` is still unbound, the handler itself raises
`UnboundLocalError` at src/main.py:921 and the whole pass aborts before
any sleep or counter update.  Any other error is logged and counted
skipped with no sleep.  (A FloodWait raised by the inner
`GetParticipantRequest` try is swallowed at src/main.py:901-902 and
surfaces as a missing join date inside an `ok` outcome.) -/
def enrichLoop (fetch : Nat → FetchOutcome) (timeFires : Nat → Bool) :
    Nat → EnrichState → List EnrichRec → EnrichRun
  | _, st, [] => .done st
  | idx, st, rec :: rest =>
    match fetch rec.id with
    | .ok b j =>
        enrichLoop fetch timeFires (idx + 1)
          (progressBlock timeFires idx
            (if strTruthy b || strTruthy j then
              { st with enrichedCount := st.enrichedCount + 1,
                        detailCalls := st.detailCalls ++ [rec.id],
                        updates := st.updates ++ [(rec.id, b, j)],
                        sleeps := st.sleeps ++ [300] }
            else
              { st with skipped := st.skipped + 1,
                        detailCalls := st.detailCalls ++ [rec.id],
                        sleeps := st.sleeps ++ [300] })) rest
    | .floodWait w =>
        if st.progressBound then
          enrichLoop fetch timeFires (idx + 1)
            { st with skipped := st.skipped + 1,
                      detailCalls := st.detailCalls ++ [rec.id],
                      sleeps := st.sleeps ++ [(w + 2) * 1000] } rest
        else
          .aborted { st with detailCalls := st.detailCalls ++ [rec.id] }
    | .err =>
        enrichLoop fetch timeFires (idx + 1)
          (progressBlock timeFires idx
            { st with skipped := st.skipped + 1,
                      detailCalls := st.detailCalls ++ [rec.id] }) rest

/-- Models `enrich_subscribers` (src/main.py:848-967) without
cancellation: the loop above run from a fresh state over the records the
needing-enrichment query returned, remote calls abstracted by the
`fetch` oracle and the progress-window clock by `timeFires`. -/
def enrich_subscribers (fetch : Nat → FetchOutcome) (timeFires : Nat → Bool)
    (needing : List EnrichRec) : EnrichRun :=
  enrichLoop fetch timeFires 0 initEnrichState needing

/-- The legacy extended-mode state (src/main.py:614-658): how many
members were processed and which identities went down the per-member
detail-call path. -/
structure ExtState where
  processedCount : Nat
  detailCalls : List Nat
deriving Repr, DecidableEq

/-- One iteration of the extended-mode loop of
`get_channel_subscribers` (src/main.py:624-658): a member flagged bot or
deleted is counted processed and skipped before any detail call;
everyone else is sent down the detail-call path. -/
def extendedEnrichStep (st : ExtState) (u : UserData) : ExtState :=
  if u.bot || u.deleted then
    { st with processedCount := st.processedCount + 1 }
  else
    { processedCount := st.processedCount + 1,
      detailCalls := st.detailCalls ++ [u.id] }

/-- The whole extended-mode pass over the deduplicated member list. -/
def extendedEnrich (users : List UserData) : ExtState :=
  users.foldl extendedEnrichStep { processedCount := 0, detailCalls := [] }

/-! ### Enrichment lemmas -/

/-- The progress block changes only the `progress` binding. -/
theorem progressBlock_fields (timeFires : Nat → Bool) (idx : Nat)
    (st : EnrichState) :
    (progressBlock timeFires idx st).detailCalls = st.detailCalls ∧
    (progressBlock timeFires idx st).sleeps = st.sleeps := by
  unfold progressBlock
  split <;> exact ⟨rfl, rfl⟩

/-- Loop unfolding on an ok outcome. -/
theorem enrichLoop_cons_ok (fetch : Nat → FetchOutcome)
    (timeFires : Nat → Bool) (idx : Nat) (st : EnrichState) (r : EnrichRec)
    (rest : List EnrichRec) (b j : Option String)
    (hf : fetch r.id = .ok b j) :
    enrichLoop fetch timeFires idx st (r :: rest) =
      enrichLoop fetch timeFires (idx + 1)
        (progressBlock timeFires idx
          (if strTruthy b || strTruthy j then
            { st with enrichedCount := st.enrichedCount + 1,
                      detailCalls := st.detailCalls ++ [r.id],
                      updates := st.updates ++ [(r.id, b, j)],
                      sleeps := st.sleeps ++ [300] }
          else
            { st with skipped := st.skipped + 1,
                      detailCalls := st.detailCalls ++ [r.id],
                      sleeps := st.sleeps ++ [300] })) rest := by
  simp only [enrichLoop, hf]

/-- Loop unfolding on a throttle signal arriving after a progress
render: backoff sleep, member skipped, loop continues — no retry. -/
theorem enrichLoop_cons_flood_bound (fetch : Nat → FetchOutcome)
    (timeFires : Nat → Bool) (idx : Nat) (st : EnrichState) (r : EnrichRec)
    (rest : List EnrichRec) (w : Nat) (hpb : st.progressBound = true)
    (hf : fetch r.id = .floodWait w) :
    enrichLoop fetch timeFires idx st (r :: rest) =
      enrichLoop fetch timeFires (idx + 1)
        { st with skipped := st.skipped + 1,
                  detailCalls := st.detailCalls ++ [r.id],
                  sleeps := st.sleeps ++ [(w + 2) * 1000] } rest := by
  simp only [enrichLoop, hf, hpb, if_true]

/-- Loop unfolding on a throttle signal arriving before the first
progress render: the handler crashes on the unbound `progress` local and
the pass aborts with no sleep and no counter update. -/
theorem enrichLoop_cons_flood_unbound (fetch : Nat → FetchOutcome)
    (timeFires : Nat → Bool) (idx : Nat) (st : EnrichState) (r : EnrichRec)
    (rest : List EnrichRec) (w : Nat) (hpb : st.progressBound = false)
    (hf : fetch r.id = .floodWait w) :
    enrichLoop fetch timeFires idx st (r :: rest) =
      .aborted { st with detailCalls := st.detailCalls ++ [r.id] } := by
  simp only [enrichLoop, hf, hpb, Bool.false_eq_true, if_false]

/-- Loop unfolding on any other error: skipped, no sleep. -/
theorem enrichLoop_cons_err (fetch : Nat → FetchOutcome)
    (timeFires : Nat → Bool) (idx : Nat) (st : EnrichState) (r : EnrichRec)
    (rest : List EnrichRec) (hf : fetch r.id = .err) :
    enrichLoop fetch timeFires idx st (r :: rest) =
      enrichLoop fetch timeFires (idx + 1)
        (progressBlock timeFires idx
          { st with skipped := st.skipped + 1,
                    detailCalls := st.detailCalls ++ [r.id] }) rest := by
  simp only [enrichLoop, hf]

/-- A throttle-free pass completes normally, and its detail-call path
received every record in order. -/
theorem enrichLoop_noflood (fetch : Nat → FetchOutcome)
    (timeFires : Nat → Bool) (needing : List EnrichRec) :
    ∀ idx st, (∀ r ∈ needing, isFlood (fetch r.id) = false) →
      ∃ st2, enrichLoop fetch timeFires idx st needing = .done st2 ∧
        st2.detailCalls = st.detailCalls ++ needing.map (fun r => r.id) := by
  induction needing with
  | nil =>
    intro idx st _h
    exact ⟨st, by simp [enrichLoop], by simp⟩
  | cons r rest ih =>
    intro idx st h
    have hrest : ∀ x ∈ rest, isFlood (fetch x.id) = false :=
      fun x hx => h x (List.mem_cons_of_mem r hx)
    cases hf : fetch r.id with
    | ok b j =>
      rw [enrichLoop_cons_ok fetch timeFires idx st r rest b j hf]
      obtain ⟨st2, he, hd⟩ := ih (idx + 1) (progressBlock timeFires idx
        (if strTruthy b || strTruthy j then
          { st with enrichedCount := st.enrichedCount + 1,
                    detailCalls := st.detailCalls ++ [r.id],
                    updates := st.updates ++ [(r.id, b, j)],
                    sleeps := st.sleeps ++ [300] }
        else
          { st with skipped := st.skipped + 1,
                    detailCalls := st.detailCalls ++ [r.id],
                    sleeps := st.sleeps ++ [300] })) hrest
      refine ⟨st2, he, ?_⟩
      rw [hd, (progressBlock_fields timeFires idx _).1]
      by_cases hbj : (strTruthy b || strTruthy j) = true
      · simp [hbj, List.append_assoc]
      · simp [hbj, List.append_assoc]
    | floodWait w =>
      have hfl := h r (List.mem_cons_self r rest)
      rw [hf] at hfl
      simp [isFlood] at hfl
    | err =>
      rw [enrichLoop_cons_err fetch timeFires idx st r rest hf]
      obtain ⟨st2, he, hd⟩ := ih (idx + 1) (progressBlock timeFires idx
        { st with skipped := st.skipped + 1,
                  detailCalls := st.detailCalls ++ [r.id] }) hrest
      refine ⟨st2, he, ?_⟩
      rw [hd, (progressBlock_fields timeFires idx _).1]
      simp [List.append_assoc]

/-- Whatever the oracle does, the detail-call path receives exactly the
ids of a prefix of the records: each record's operation is attempted at
most once per pass, in order, and never re-attempted. -/
theorem enrichLoop_prefix (fetch : Nat → FetchOutcome)
    (timeFires : Nat → Bool) (needing : List EnrichRec) :
    ∀ idx st, ∃ k, k ≤ needing.length ∧
      (enrichLoop fetch timeFires idx st needing).trace.detailCalls =
        st.detailCalls ++ ((needing.take k).map (fun r => r.id)) := by
  induction needing with
  | nil =>
    intro idx st
    exact ⟨0, Nat.le_refl 0, by simp [enrichLoop, EnrichRun.trace]⟩
  | cons r rest ih =>
    intro idx st
    cases hf : fetch r.id with
    | ok b j =>
      rw [enrichLoop_cons_ok fetch timeFires idx st r rest b j hf]
      obtain ⟨k, hk, hd⟩ := ih (idx + 1) (progressBlock timeFires idx
        (if strTruthy b || strTruthy j then
          { st with enrichedCount := st.enrichedCount + 1,
                    detailCalls := st.detailCalls ++ [r.id],
                    updates := st.updates ++ [(r.id, b, j)],
                    sleeps := st.sleeps ++ [300] }
        else
          { st with skipped := st.skipped + 1,
                    detailCalls := st.detailCalls ++ [r.id],
                    sleeps := st.sleeps ++ [300] }))
      refine ⟨k + 1, by simpa using Nat.succ_le_succ hk, ?_⟩
      rw [hd, (progressBlock_fields timeFires idx _).1]
      by_cases hbj : (strTruthy b || strTruthy j) = true
      · simp [hbj, List.append_assoc]
      · simp [hbj, List.append_assoc]
    | floodWait w =>
      by_cases hpb : st.progressBound = true
      · rw [enrichLoop_cons_flood_bound fetch timeFires idx st r rest w hpb hf]
        obtain ⟨k, hk, hd⟩ := ih (idx + 1)
          { st with skipped := st.skipped + 1,
                    detailCalls := st.detailCalls ++ [r.id],
                    sleeps := st.sleeps ++ [(w + 2) * 1000] }
        refine ⟨k + 1, by simpa using Nat.succ_le_succ hk, ?_⟩
        rw [hd]
        simp [List.append_assoc]
      · have hpb2 : st.progressBound = false := by
          revert hpb
          cases st.progressBound <;> simp
        rw [enrichLoop_cons_flood_unbound fetch timeFires idx st r rest w
          hpb2 hf]
        refine ⟨1, by simp, ?_⟩
        simp [EnrichRun.trace]
    | err =>
      rw [enrichLoop_cons_err fetch timeFires idx st r rest hf]
      obtain ⟨k, hk, hd⟩ := ih (idx + 1) (progressBlock timeFires idx
        { st with skipped := st.skipped + 1,
                  detailCalls := st.detailCalls ++ [r.id] })
      refine ⟨k + 1, by simpa using Nat.succ_le_succ hk, ?_⟩
      rw [hd, (progressBlock_fields timeFires idx _).1]
      simp [List.append_assoc]

/-- Every sleep a pass performs is either the fixed 0.3 s pacing sleep
or the `(w + 2)` s backoff of a FloodWait reported for one of its
records — no other error class causes a sleep. -/
theorem enrichLoop_sleeps (fetch : Nat → FetchOutcome)
    (timeFires : Nat → Bool) (needing : List EnrichRec) :
    ∀ idx st s, s ∈ (enrichLoop fetch timeFires idx st needing).trace.sleeps →
      s ∈ st.sleeps ∨ s = 300 ∨
      ∃ r ∈ needing, ∃ w, fetch r.id = FetchOutcome.floodWait w ∧
        s = (w + 2) * 1000 := by
  induction needing with
  | nil =>
    intro idx st s hs
    left
    simpa [enrichLoop, EnrichRun.trace] using hs
  | cons r rest ih =>
    intro idx st s hs
    cases hf : fetch r.id with
    | ok b j =>
      rw [enrichLoop_cons_ok fetch timeFires idx st r rest b j hf] at hs
      rcases ih (idx + 1) _ s hs with h1 | h2 | ⟨x, hx, w, hw, hsw⟩
      · rw [(progressBlock_fields timeFires idx _).2] at h1
        by_cases hbj : (strTruthy b || strTruthy j) = true
        · simp only [hbj, if_true] at h1
          rcases List.mem_append.mp h1 with h3 | h3
          · exact Or.inl h3
          · exact Or.inr (Or.inl (by simpa using h3))
        · simp only [hbj, Bool.false_eq_true, if_false] at h1
          rcases List.mem_append.mp h1 with h3 | h3
          · exact Or.inl h3
          · exact Or.inr (Or.inl (by simpa using h3))
      · exact Or.inr (Or.inl h2)
      · exact Or.inr (Or.inr ⟨x, List.mem_cons_of_mem r hx, w, hw, hsw⟩)
    | floodWait w =>
      by_cases hpb : st.progressBound = true
      · rw [enrichLoop_cons_flood_bound fetch timeFires idx st r rest w
          hpb hf] at hs
        rcases ih (idx + 1) _ s hs with h1 | h2 | ⟨x, hx, w2, hw2, hsw2⟩
        · simp only at h1
          rcases List.mem_append.mp h1 with h3 | h3
          · exact Or.inl h3
          · refine Or.inr (Or.inr ⟨r, List.mem_cons_self r rest, w, hf, ?_⟩)
            simpa using h3
        · exact Or.inr (Or.inl h2)
        · exact Or.inr (Or.inr ⟨x, List.mem_cons_of_mem r hx, w2, hw2, hsw2⟩)
      · have hpb2 : st.progressBound = false := by
          revert hpb
          cases st.progressBound <;> simp
        rw [enrichLoop_cons_flood_unbound fetch timeFires idx st r rest w
          hpb2 hf] at hs
        exact Or.inl (by simpa [EnrichRun.trace] using hs)
    | err =>
      rw [enrichLoop_cons_err fetch timeFires idx st r rest hf] at hs
      rcases ih (idx + 1) _ s hs with h1 | h2 | ⟨x, hx, w, hw, hsw⟩
      · rw [(progressBlock_fields timeFires idx _).2] at h1
        exact Or.inl h1
      · exact Or.inr (Or.inl h2)
      · exact Or.inr (Or.inr ⟨x, List.mem_cons_of_mem r hx, w, hw, hsw⟩)

/-- Fold lemma for the extended mode: everyone is processed, the detail
path gets exactly the members not flagged bot or deleted. -/
theorem extendedEnrichFold (users : List UserData) (st : ExtState) :
    (users.foldl extendedEnrichStep st).processedCount =
      st.processedCount + users.length ∧
    (users.foldl extendedEnrichStep st).detailCalls =
      st.detailCalls ++
        (users.filter (fun u => !(u.bot || u.deleted))).map
          (fun u => u.id) := by
  induction users generalizing st with
  | nil => simp
  | cons u rest ih =>
    obtain ⟨ih1, ih2⟩ := ih (extendedEnrichStep st u)
    simp only [List.foldl_cons, List.length_cons, List.filter_cons]
    constructor
    · rw [ih1]
      by_cases hb : (u.bot || u.deleted) = true <;>
        simp [extendedEnrichStep, hb] <;> omega
    · rw [ih2]
      by_cases hb : (u.bot || u.deleted) = true <;>
        simp [extendedEnrichStep, hb, List.append_assoc]

/-- A bot-flagged database row that still lacks a bio, used to refute
the skip rule on the Supabase enrichment pipeline. -/
def botRow : DbRow :=
  { id := 42, username := some "botty", firstName := none,
    lastName := none, phone := none, isBot := true, status := some "Bot",
    bioText := none, joinDate := none }

/-- Counterexample for claim C4: a member flagged as automated
(`is_bot = true`) and lacking a bio is returned by the
needing-enrichment query and is passed down the per-member detail-call
path by `enrich_subscribers` — it is even counted as enriched when the
call succeeds. -/
theorem enrich_bot_counterexample :
    botRow.isBot = true ∧
    (get_subscribers_needing_enrichment [botRow]).map
      (fun r => r.id) = [42] ∧
    (enrich_subscribers (fun _ => .ok (some "a bot bio") none)
        (fun _ => false)
        (get_subscribers_needing_enrichment [botRow])).trace.detailCalls =
      [42] ∧
    (enrich_subscribers (fun _ => .ok (some "a bot bio") none)
        (fun _ => false)
        (get_subscribers_needing_enrichment [botRow])).trace.enrichedCount =
      1 := by
  refine ⟨rfl, by decide, by decide, by decide⟩

/-- Claim C4 as amended: the Supabase enrichment pipeline
(`enrich_subscribers`) applies no bot/deleted filter — every record it
reaches, flagged or not, goes down the per-member detail-call path, and
the records reached are always a prefix of the needing-enrichment query
result; whenever no throttle signal occurs (in particular, none before
the first progress render) the pass completes and every record of the
query result is detail-called.  The skip rule of the claim holds only in
the legacy extended mode of `get_channel_subscribers`, where a member
flagged bot or deleted is never passed to the detail-call path yet still
counts in the processed total. -/
theorem enrich_skip_amended (fetch : Nat → FetchOutcome)
    (timeFires : Nat → Bool) (needing : List EnrichRec)
    (users : List UserData) :
    ((∀ r ∈ needing, isFlood (fetch r.id) = false) →
      (∃ st, enrich_subscribers fetch timeFires needing =
        EnrichRun.done st) ∧
      (enrich_subscribers fetch timeFires needing).trace.detailCalls =
        needing.map (fun r => r.id)) ∧
    (∃ k, k ≤ needing.length ∧
      (enrich_subscribers fetch timeFires needing).trace.detailCalls =
        ((needing.take k).map (fun r => r.id))) ∧
    (extendedEnrich users).processedCount = users.length ∧
    (extendedEnrich users).detailCalls =
      (users.filter (fun u => !(u.bot || u.deleted))).map
        (fun u => u.id) := by
  refine ⟨?_, ?_, ?_, ?_⟩
  · intro h
    obtain ⟨st2, he, hd⟩ :=
      enrichLoop_noflood fetch timeFires needing 0 initEnrichState h
    refine ⟨⟨st2, he⟩, ?_⟩
    rw [enrich_subscribers, he]
    simpa [EnrichRun.trace, initEnrichState] using hd
  · obtain ⟨k, hk, hd⟩ :=
      enrichLoop_prefix fetch timeFires needing 0 initEnrichState
    exact ⟨k, hk, by simpa [enrich_subscribers, initEnrichState] using hd⟩
  · have h := (extendedEnrichFold users
      { processedCount := 0, detailCalls := [] }).1
    simpa [extendedEnrich] using h
  · have h := (extendedEnrichFold users
      { processedCount := 0, detailCalls := [] }).2
    simpa [extendedEnrich] using h

/-- Witness for the amended C4 on the bot record under a throttle-free
oracle. -/
theorem enrich_skip_amended_w :
    (∀ r ∈ get_subscribers_needing_enrichment [botRow],
      isFlood ((fun _ => FetchOutcome.ok (some "a bot bio") none)
        r.id) = false) ∧
    ((∃ st, enrich_subscribers
        (fun _ => FetchOutcome.ok (some "a bot bio") none) (fun _ => false)
        (get_subscribers_needing_enrichment [botRow]) =
          EnrichRun.done st) ∧
      (enrich_subscribers
        (fun _ => FetchOutcome.ok (some "a bot bio") none) (fun _ => false)
        (get_subscribers_needing_enrichment [botRow])).trace.detailCalls =
        (get_subscribers_needing_enrichment [botRow]).map
          (fun r => r.id)) :=
  ⟨by decide,
   (enrich_skip_amended (fun _ => FetchOutcome.ok (some "a bot bio") none)
      (fun _ => false) (get_subscribers_needing_enrichment [botRow]) []).1
     (by decide)⟩

/-- Counterexample for claim C5: under the mocked sequence
`Throttled(wait=5), Success` — the first detail call of a fresh pass
reports FloodWait, a replay would succeed — the enrichment loop issues
the call exactly once and never replays it; the throttle handler then
reads the unbound `progress` local and the pass aborts with no backoff
sleep at all and zeroed returned counters.  Neither the claimed
`≥ 5`-unit sleep nor the single retry nor the successful value ever
happens. -/
theorem throttle_no_retry_counterexample :
    enrich_subscribers (fun _ => FetchOutcome.floodWait 5) (fun _ => false)
      [{ id := 7, username := none, firstName := none, lastName := none }] =
      EnrichRun.aborted
        { enrichedCount := 0, skipped := 0, detailCalls := [7],
          updates := [], sleeps := [], progressBound := false } ∧
    (enrich_subscribers (fun _ => FetchOutcome.floodWait 5) (fun _ => false)
      [{ id := 7, username := none, firstName := none, lastName := none }]
      ).trace.detailCalls = [7] ∧
    (enrich_subscribers (fun _ => FetchOutcome.floodWait 5) (fun _ => false)
      [{ id := 7, username := none, firstName := none, lastName := none }]
      ).trace.sleeps = ([] : List Nat) ∧
    (enrich_subscribers (fun _ => FetchOutcome.floodWait 5) (fun _ => false)
      [{ id := 7, username := none, firstName := none, lastName := none }]
      ).returned = (0, 0) := by
  refine ⟨by decide, by decide, by decide, by decide⟩

/-- Claim C5 as amended: no remote operation is ever retried — the
detail-call path of a pass is the id sequence of a prefix of its
records, one attempt each.  A throttle signal carrying wait `w` that
arrives after the pass has rendered progress at least once makes the
pipeline sleep `(w + 2) * 1000` ms — at least `w` seconds — before any
further call, count the member as skipped and continue with the next
member; one that arrives before the first progress render crashes the
pass on the unbound `progress` local, aborting it with no sleep.  Every
sleep of a pass is either the fixed 0.3 s pacing sleep or such a
`(w + 2)` s throttle backoff — no other error class triggers a sleep or
a retry. -/
theorem enrich_throttle_amended (fetch : Nat → FetchOutcome)
    (timeFires : Nat → Bool) (needing : List EnrichRec) :
    (∀ r rest w, needing = r :: rest →
      fetch r.id = FetchOutcome.floodWait w →
      enrich_subscribers fetch timeFires needing =
        EnrichRun.aborted
          { enrichedCount := 0, skipped := 0, detailCalls := [r.id],
            updates := [], sleeps := [], progressBound := false }) ∧
    (∀ idx st r rest w, st.progressBound = true →
      fetch r.id = FetchOutcome.floodWait w →
      enrichLoop fetch timeFires idx st (r :: rest) =
        enrichLoop fetch timeFires (idx + 1)
          { st with skipped := st.skipped + 1,
                    detailCalls := st.detailCalls ++ [r.id],
                    sleeps := st.sleeps ++ [(w + 2) * 1000] } rest ∧
      1000 * w ≤ (w + 2) * 1000) ∧
    (∃ k, k ≤ needing.length ∧
      (enrich_subscribers fetch timeFires needing).trace.detailCalls =
        ((needing.take k).map (fun r => r.id))) ∧
    (∀ s ∈ (enrich_subscribers fetch timeFires needing).trace.sleeps,
      s = 300 ∨ ∃ r ∈ needing, ∃ w,
        fetch r.id = FetchOutcome.floodWait w ∧ s = (w + 2) * 1000 ∧
        1000 * w ≤ s) := by
  refine ⟨?_, ?_, ?_, ?_⟩
  · intro r rest w hne hf
    rw [hne, enrich_subscribers,
      enrichLoop_cons_flood_unbound fetch timeFires 0 initEnrichState r rest
        w rfl hf]
    simp [initEnrichState]
  · intro idx st r rest w hpb hf
    exact ⟨enrichLoop_cons_flood_bound fetch timeFires idx st r rest w
      hpb hf, by omega⟩
  · obtain ⟨k, hk, hd⟩ :=
      enrichLoop_prefix fetch timeFires needing 0 initEnrichState
    exact ⟨k, hk, by simpa [enrich_subscribers, initEnrichState] using hd⟩
  · intro s hs
    have h := enrichLoop_sleeps fetch timeFires needing 0 initEnrichState s
      (by simpa [enrich_subscribers] using hs)
    rcases h with h1 | h2 | ⟨r, hr, w, hw, hsw⟩
    · simp [initEnrichState] at h1
    · exact Or.inl h2
    · exact Or.inr ⟨r, hr, w, hw, hsw, by omega⟩

/-- Witness for the amended C5: the fresh-pass crash and the
bound-progress backoff, both at concrete inputs. -/
theorem enrich_throttle_amended_w :
    ([({ id := 7, username := none, firstName := none,
         lastName := none } : EnrichRec)] =
      ({ id := 7, username := none, firstName := none,
         lastName := none } : EnrichRec) :: []) ∧
    ((fun _ : Nat => FetchOutcome.floodWait 5) 7 =
      FetchOutcome.floodWait 5) ∧
    (enrich_subscribers (fun _ => FetchOutcome.floodWait 5) (fun _ => false)
      [{ id := 7, username := none, firstName := none, lastName := none }] =
      EnrichRun.aborted
        { enrichedCount := 0, skipped := 0, detailCalls := [7],
          updates := [], sleeps := [], progressBound := false }) ∧
    (enrichLoop (fun _ => FetchOutcome.floodWait 4) (fun _ => false) 0
        { enrichedCount := 0, skipped := 0, detailCalls := [], updates := [],
          sleeps := [], progressBound := true }
        [{ id := 9, username := none, firstName := none, lastName := none }] =
      enrichLoop (fun _ => FetchOutcome.floodWait 4) (fun _ => false) 1
        { enrichedCount := 0, skipped := 1, detailCalls := [9],
          updates := [], sleeps := [(4 + 2) * 1000], progressBound := true }
        [] ∧
     1000 * 4 ≤ (4 + 2) * 1000) :=
  ⟨rfl, rfl,
   (enrich_throttle_amended (fun _ => FetchOutcome.floodWait 5)
      (fun _ => false)
      [{ id := 7, username := none, firstName := none,
         lastName := none }]).1
     { id := 7, username := none, firstName := none, lastName := none }
     [] 5 rfl rfl,
   (enrich_throttle_amended (fun _ => FetchOutcome.floodWait 4)
      (fun _ => false)
      [{ id := 9, username := none, firstName := none,
         lastName := none }]).2.1
     0 { enrichedCount := 0, skipped := 0, detailCalls := [], updates := [],
         sleeps := [], progressBound := true }
     { id := 9, username := none, firstName := none, lastName := none }
     [] 4 rfl rfl⟩

/-! ## CSV export (src/main.py:1003-1047) -/

/-- Decimal digit to character, as `str` renders one digit. -/
def digitChar10 (d : Nat) : Char :=
  match d with
  | 0 => '0' | 1 => '1' | 2 => '2' | 3 => '3' | 4 => '4'
  | 5 => '5' | 6 => '6' | 7 => '7' | 8 => '8' | _ => '9'

/-- Character back to decimal digit. -/
def digitVal10 (c : Char) : Nat :=
  match c with
  | '0' => 0 | '1' => 1 | '2' => 2 | '3' => 3 | '4' => 4
  | '5' => 5 | '6' => 6 | '7' => 7 | '8' => 8 | _ => 9

/-- Decimal digits of a natural number, most significant first. -/
def natToDigits (n : Nat) : List Nat :=
  if _h : n < 10 then [n]
  else natToDigits (n / 10) ++ [n % 10]
termination_by n
decreasing_by exact Nat.div_lt_self (by omega) (by omega)

/-- Reassemble a digit list into a number. -/
def digitsToNat (ds : List Nat) : Nat :=
  ds.foldl (fun acc d => acc * 10 + d) 0

/-- Models Python `str` on the integer identity column. -/
def natRepr (n : Nat) : String :=
  String.mk ((natToDigits n).map digitChar10)

/-- Re-parse of the identity column. -/
def natParse (s : String) : Nat :=
  digitsToNat (s.toList.map digitVal10)

/-- The CSV-facing member record.  `create_subscribers_csv` accepts both
the Telethon dict shape (camelCase keys, `bot`) and the Supabase row
shape (snake_case keys, `is_bot`), so both key variants are present as
optional fields; an absent key is `none`.  The `bio` field is named
`bioText`. -/
structure CsvUser where
  id : Nat
  username : Option String
  firstName : Option String
  first_name : Option String
  lastName : Option String
  last_name : Option String
  phone : Option String
  bot : Option Bool
  is_bot : Bool
  status : Option String
  bioText : Option String
  join_date : Option String
deriving Repr, DecidableEq

/-- Models `user.get('bot') or user.get('is_bot', False)`
(src/main.py:1029). -/
def effIsBot (u : CsvUser) : Bool :=
  u.bot.getD false || u.is_bot

/-- Models `f"@{username}" if username else ''` (src/main.py:1033). -/
def usernameCell (u : CsvUser) : String :=
  if strTruthy u.username then "@" ++ u.username.getD "" else ""

/-- One data row of the CSV, as the nine cells handed to `csv.writer`
(src/main.py:1031-1041).  Python's `csv` module round-trips each cell
exactly (quoting is its inverse), so the embedding works at cell
level. -/
def csvRow (u : CsvUser) : List String :=
  [natRepr u.id,
   usernameCell u,
   pyStrOr2 u.firstName u.first_name,
   pyStrOr2 u.lastName u.last_name,
   pyStrOrEmpty u.phone,
   if effIsBot u then "Да" else "Нет",
   pyStrOrDefault u.status "Unknown",
   pyStrOrEmpty u.bioText,
   pyStrOrEmpty u.join_date]

/-- The header row (src/main.py:1019-1022). -/
def csvHeader : List String :=
  ["ID", "Username", "First Name", "Last Name", "Phone", "Bot", "Status",
   "Bio", "Join Date"]

/-- The whole exported table of `create_subscribers_csv`. -/
def csvTable (subscribers : List CsvUser) : List (List String) :=
  csvHeader :: subscribers.map csvRow

/-- Re-parse of the handle column: empty cell means no handle, otherwise
strip the leading `@`. -/
def decodeHandle (s : String) : Option String :=
  match s.toList with
  | [] => none
  | _ :: rest => some (String.mk rest)

/-- Re-parse of the boolean column token. -/
def decodeBotTok (s : String) : Bool :=
  s == "Да"

/-! ### CSV lemmas -/

/-- Digit round trip. -/
theorem digitVal10_digitChar10 (d : Nat) (h : d < 10) :
    digitVal10 (digitChar10 d) = d := by
  interval_cases d <;> rfl

/-- Appending a digit multiplies and adds. -/
theorem digitsToNat_append (ds : List Nat) (d : Nat) :
    digitsToNat (ds ++ [d]) = digitsToNat ds * 10 + d := by
  simp [digitsToNat, List.foldl_append]

/-- The digit expansion reassembles to the number. -/
theorem digitsToNat_natToDigits (n : Nat) :
    digitsToNat (natToDigits n) = n := by
  induction n using Nat.strong_induction_on with
  | _ n ih =>
    rw [natToDigits]
    split
    · simp [digitsToNat]
    · rename_i h
      rw [digitsToNat_append,
        ih (n / 10) (Nat.div_lt_self (by omega) (by omega))]
      omega

/-- Every produced digit is below 10. -/
theorem natToDigits_lt (n : Nat) : ∀ d ∈ natToDigits n, d < 10 := by
  induction n using Nat.strong_induction_on with
  | _ n ih =>
    rw [natToDigits]
    split
    · rename_i h
      intro d hd
      simp at hd
      omega
    · rename_i h
      intro d hd
      rcases List.mem_append.mp hd with h1 | h2
      · exact ih (n / 10) (Nat.div_lt_self (by omega) (by omega)) d h1
      · simp at h2
        omega

/-- Identity column round trip. -/
theorem natParse_natRepr (n : Nat) : natParse (natRepr n) = n := by
  have h1 : (natRepr n).toList = (natToDigits n).map digitChar10 := rfl
  simp only [natParse, h1, List.map_map]
  have h2 : ∀ d ∈ natToDigits n, (digitVal10 ∘ digitChar10) d = id d := by
    intro d hd
    simpa using digitVal10_digitChar10 d (natToDigits_lt n d hd)
  rw [List.map_congr_left h2, List.map_id]
  exact digitsToNat_natToDigits n

/-- Handle column round trip for a member whose handle is not the empty
string. -/
theorem decodeHandle_usernameCell (u : CsvUser) (h : u.username ≠ some "") :
    decodeHandle (usernameCell u) = u.username := by
  cases hu : u.username with
  | none => simp [usernameCell, hu, strTruthy, decodeHandle]
  | some s =>
    have hs : s ≠ "" := by
      intro hc
      rw [hu, hc] at h
      exact h rfl
    cases s with
    | mk l =>
      cases l with
      | nil => exact absurd rfl hs
      | cons c cs =>
        have hne : (String.mk (c :: cs)).isEmpty = false := by
          rw [Bool.eq_false_iff]
          intro hemp
          have h2 := (String.isEmpty_iff (String.mk (c :: cs))).mp hemp
          have h3 : (c :: cs) = ([] : List Char) := congrArg String.data h2
          exact absurd h3 (by simp)
        simp only [usernameCell, hu, strTruthy, hne, Bool.not_false, if_true,
          Option.getD_some]
        simp [decodeHandle, String.toList]

/-- Claim C7: for every member list whose present handles are non-empty
strings, the exported table has one data row per member and re-parsing a
member's row recovers the identity, the handle, and the boolean flag
exactly; the boolean column is the fixed two-valued token pair
`Да`/`Нет` (never `true`/`false`), and every null optional field renders
as the empty string, never as a literal `None` or `null`. -/
theorem csv_round_trip (subscribers : List CsvUser)
    (hu : ∀ u ∈ subscribers, u.username ≠ some "") :
    csvTable subscribers = csvHeader :: subscribers.map csvRow ∧
    ∀ u ∈ subscribers,
      (csvRow u).length = 9 ∧
      natParse ((csvRow u).getD 0 "") = u.id ∧
      decodeHandle ((csvRow u).getD 1 "") = u.username ∧
      decodeBotTok ((csvRow u).getD 5 "") = effIsBot u ∧
      ((csvRow u).getD 5 "" = "Да" ∨ (csvRow u).getD 5 "" = "Нет") ∧
      (u.username = none → (csvRow u).getD 1 "" = "") ∧
      (u.phone = none → (csvRow u).getD 4 "" = "") ∧
      (u.bioText = none → (csvRow u).getD 7 "" = "") ∧
      (u.join_date = none → (csvRow u).getD 8 "" = "") := by
  refine ⟨rfl, ?_⟩
  intro u hmem
  refine ⟨rfl, ?_, ?_, ?_, ?_, ?_, ?_, ?_, ?_⟩
  · exact natParse_natRepr u.id
  · exact decodeHandle_usernameCell u (hu u hmem)
  · show decodeBotTok (if effIsBot u then "Да" else "Нет") = effIsBot u
    by_cases hb : effIsBot u = true
    · simp [hb, decodeBotTok]
    · simp only [Bool.not_eq_true] at hb
      rw [hb]
      simp only [Bool.false_eq_true, if_false]
      decide
  · show (if effIsBot u then "Да" else "Нет") = "Да" ∨
        (if effIsBot u then "Да" else "Нет") = "Нет"
    by_cases hb : effIsBot u = true
    · left
      simp [hb]
    · right
      simp only [Bool.not_eq_true] at hb
      simp [hb]
  · intro hn
    show usernameCell u = ""
    simp [usernameCell, hn, strTruthy]
  · intro hn
    show pyStrOrEmpty u.phone = ""
    simp [pyStrOrEmpty, hn, strTruthy]
  · intro hn
    show pyStrOrEmpty u.bioText = ""
    simp [pyStrOrEmpty, hn, strTruthy]
  · intro hn
    show pyStrOrEmpty u.join_date = ""
    simp [pyStrOrEmpty, hn, strTruthy]

/-- A Telethon-shaped record with a handle and a bot flag but null
optional fields. -/
def csvSampleA : CsvUser :=
  { id := 123, username := some "alice", firstName := some "Alice",
    first_name := none, lastName := none, last_name := none, phone := none,
    bot := some true, is_bot := false, status := some "Online",
    bioText := none, join_date := none }

/-- A Supabase-shaped record with no handle and snake_case name keys. -/
def csvSampleB : CsvUser :=
  { id := 4, username := none, firstName := none, first_name := some "Bob",
    lastName := none, last_name := some "Smith", phone := some "123",
    bot := none, is_bot := true, status := none, bioText := some "hi",
    join_date := some "2024-01-01T00:00:00" }

/-- Witness for C7 at a concrete mixed-null list. -/
theorem csv_round_trip_w :
    (∀ u ∈ [csvSampleA, csvSampleB], u.username ≠ some "") ∧
    natParse ((csvRow csvSampleA).getD 0 "") = csvSampleA.id ∧
    decodeHandle ((csvRow csvSampleB).getD 1 "") = csvSampleB.username :=
  ⟨by decide,
   ((csv_round_trip [csvSampleA, csvSampleB] (by decide)).2 csvSampleA
     (by decide)).2.1,
   ((csv_round_trip [csvSampleA, csvSampleB] (by decide)).2 csvSampleB
     (by decide)).2.2.1⟩
